import Mathlib

/-!
Verification of the meta-decode (desub) V14 metadata-driven extrinsic decoder.

The development shallowly embeds:
- the type registry and type definitions (mirroring the scale-info portable
  registry used by `desub-current`),
- the `Metadata` structure and its lookup functions from
  `src/desub-current/src/metadata/mod.rs`,
- the decoded `Value` model from `src/core_v14/src/value.rs`,
- the type-directed value decoder and extrinsic framing. The decoder module
  itself is not part of the provided sources (only its tests and the metadata
  module are), so those functions are modelled from the specification and are
  marked as such in their doc comments.

Rust `u8`/`u32` values are represented as `Nat` (byte inputs are lists of
naturals; arithmetic that would overflow in Rust is guarded explicitly where
it matters). Rust `HashMap` is modelled as an association list together with
first-match lookup. Fallible Rust functions returning `Result` are modelled
with `Except`; functions returning `Option` keep `Option`.
-/

namespace MetaDecode

/-- Primitive type kinds of the registry (scale-info `TypeDefPrimitive`),
spec section 3. -/
inductive TypeDefPrimitive where
  | bool
  | char
  | str
  | u8
  | u16
  | u32
  | u64
  | u128
  | u256
  | i8
  | i16
  | i32
  | i64
  | i128
  | i256
deriving DecidableEq

/-- A field of a composite or variant: optional name plus the type id of the
field (scale-info `Field`). -/
structure Field where
  name : Option String
  ty : Nat
deriving DecidableEq

/-- One variant of a variant type: its name, its `u8` discriminant (`index`
in scale-info) and its fields. -/
structure VariantDef where
  name : String
  index : Nat
  fields : List Field
deriving DecidableEq

/-- A type definition from the registry: the tagged set of spec section 3
(scale-info `TypeDef`). -/
inductive TypeDef where
  | composite (fields : List Field)
  | variant (variants : List VariantDef)
  | sequence (elem : Nat)
  | array (len : Nat) (elem : Nat)
  | tuple (elems : List Nat)
  | primitive (p : TypeDefPrimitive)
  | compact (inner : Nat)
  | bitSequence (store : Nat) (order : Nat)
deriving DecidableEq

/-- A registry entry: the type path (used e.g. to recognise the bit-order
marker types) and the definition (scale-info `Type<PortableForm>`). -/
structure PortableType where
  path : List String
  type_def : TypeDef
deriving DecidableEq

/-- The portable registry is a flat vector of types addressed by index;
`resolve` is indexing (scale-info `PortableRegistry::resolve`). -/
def resolveTy (types : List PortableType) (id : Nat) : Option PortableType :=
  types.get? id

/-- Association-list lookup, the model of `HashMap::get`. -/
def assocGet {α : Type} (k : Nat) : List (Nat × α) → Option α
  | [] => none
  | (k2, v) :: rest => if k = k2 then some v else assocGet k rest

/-- Signed-extension record: identifier, the type of the payload included in
the extrinsic, and the type of the additional signed data
(`frame_metadata::SignedExtensionMetadata`). -/
structure SignedExtensionMetadata where
  identifier : String
  ty : Nat
  additional_signed : Nat
deriving DecidableEq

/-- Extrinsic format description held by `Metadata`
(`MetadataExtrinsic` in `metadata/mod.rs`): the extrinsic version and the
signed extensions. The `address_ty` and `signature_ty` fields are
Modelled from the spec: section 4.6 states that the address and signature
type ids used for the signature area are obtained from metadata; the code
that extracts them (the decoder module) is not among the provided sources. -/
structure MetadataExtrinsic where
  version : Nat
  signed_extensions : List SignedExtensionMetadata
  address_ty : Nat
  signature_ty : Nat
deriving DecidableEq

/-- Call information for one pallet (`MetadataCalls` in `metadata/mod.rs`):
the id of the calls variant type, and the map from `u8` call discriminant to
the position of the corresponding variant in that type. -/
structure MetadataCalls where
  calls_type_id : Nat
  call_variant_indexes : List (Nat × Nat)
deriving DecidableEq

/-- One pallet record (`MetadataPallet` in `metadata/mod.rs`). -/
structure MetadataPallet where
  name : String
  calls : Option MetadataCalls
deriving DecidableEq

/-- The `Metadata` struct of `metadata/mod.rs`: extrinsic description, the
pallet map keyed by pallet index, and the type registry. -/
structure Metadata where
  extrinsic : MetadataExtrinsic
  pallets : List (Nat × MetadataPallet)
  types : List PortableType
deriving DecidableEq

/-- Embedding of `Metadata::get_variant` (`metadata/mod.rs` lines 119-125):
resolve the type id in the registry and return its list of variants when the
definition is a variant type, `None` otherwise. Note that the source returns
`Option` and yields `None` silently in both failure cases. -/
def Metadata.get_variant (m : Metadata) (ty : Nat) : Option (List VariantDef) :=
  (resolveTy m.types ty).bind fun t =>
    match t.type_def with
    | TypeDef.variant vs => some vs
    | _ => none

/-- Embedding of `Metadata::call_variant_by_enum_index`
(`metadata/mod.rs` lines 104-117): find the pallet record by pallet index,
require call data, resolve the calls variant type, map the call discriminant
through `call_variant_indexes` to a position, and index the variant list at
that position. -/
def Metadata.call_variant_by_enum_index (m : Metadata) (pallet call : Nat) :
    Option (String × VariantDef) :=
  (assocGet pallet m.pallets).bind fun p =>
    p.calls.bind fun calls =>
      (m.get_variant calls.calls_type_id).bind fun tdv =>
        (assocGet call calls.call_variant_indexes).bind fun index =>
          (tdv.get? index).map fun variant => (p.name, variant)

/-- The error enum `MetadataError` of `metadata/mod.rs` lines 38-48. Its
constructors are exactly the four of the source: there is no `BadMagic`
variant. `codec::Error` is modelled as its message string. -/
inductive MetadataError where
  | UnsupportedVersion (got : Nat)
  | CodecError (msg : String)
  | ExpectedVariantType (got : String)
  | TypeNotFound (id : Nat)
deriving DecidableEq

/-- Pallet record of the raw V14 runtime metadata
(`frame_metadata::PalletMetadata`): name, optional calls type id, and the
explicit pallet index. -/
structure PalletMetadataV14 where
  name : String
  calls : Option Nat
  index : Nat
deriving DecidableEq

/-- Extrinsic record of the raw V14 runtime metadata
(`frame_metadata::ExtrinsicMetadata`). The address and signature type ids
are carried along for the signature area, see `MetadataExtrinsic`. -/
structure ExtrinsicMetadataV14 where
  version : Nat
  signed_extensions : List SignedExtensionMetadata
  address_ty : Nat
  signature_ty : Nat
deriving DecidableEq

/-- The raw V14 runtime metadata (`frame_metadata::RuntimeMetadataV14`):
embedded registry, pallet list, extrinsic description. -/
structure MetadataV14 where
  types : List PortableType
  pallets : List PalletMetadataV14
  extrinsic : ExtrinsicMetadataV14
deriving DecidableEq

/-- Rendering of a type definition kind, the model of the `Debug` rendering
used for the `ExpectedVariantType.got` payload. -/
def renderTypeDef : TypeDef → String
  | TypeDef.composite _ => "Composite"
  | TypeDef.variant _ => "Variant"
  | TypeDef.sequence _ => "Sequence"
  | TypeDef.array _ _ => "Array"
  | TypeDef.tuple _ => "Tuple"
  | TypeDef.primitive _ => "Primitive"
  | TypeDef.compact _ => "Compact"
  | TypeDef.bitSequence _ _ => "BitSequence"

/-- Modelled from the spec: the per-pallet part of `version_14::decode`
(the file `metadata/version_14.rs` is not among the provided sources).
Spec section 4.4 step 3: each pallet record keeps its name and, when a calls
type id is present, the discriminant-to-variant-position map built by walking
the calls variant type; a missing type id fails `TypeNotFound` and a
non-variant calls type fails `ExpectedVariantType` with the rendered
definition. -/
def buildPallet (types : List PortableType) (p : PalletMetadataV14) :
    Except MetadataError (Nat × MetadataPallet) :=
  match p.calls with
  | none => Except.ok (p.index, ⟨p.name, none⟩)
  | some callsTy =>
    match resolveTy types callsTy with
    | none => Except.error (MetadataError.TypeNotFound callsTy)
    | some t =>
      match t.type_def with
      | TypeDef.variant vs =>
        Except.ok (p.index, ⟨p.name, some ⟨callsTy, vs.enum.map (fun iv => (iv.2.index, iv.1))⟩⟩)
      | other => Except.error (MetadataError.ExpectedVariantType (renderTypeDef other))

/-- Modelled from the spec: `version_14::decode` (file not among the provided
sources), spec section 4.4 steps 3-4: consume the V14 payload, building the
pallet map and copying the extrinsic description and registry, returning the
first error encountered. -/
def version14_decode (m : MetadataV14) : Except MetadataError Metadata := do
  let pallets ← m.pallets.mapM (buildPallet m.types)
  Except.ok ⟨⟨m.extrinsic.version, m.extrinsic.signed_extensions,
              m.extrinsic.address_ty, m.extrinsic.signature_ty⟩,
             pallets, m.types⟩

/-- The `frame_metadata::RuntimeMetadata` enum: versions 0 through 13 are
deprecated (their payloads cannot be produced by decoding and are irrelevant
here, so the constructors are bare), and `V14` carries the raw V14 metadata. -/
inductive RuntimeMetadata where
  | V0
  | V1
  | V2
  | V3
  | V4
  | V5
  | V6
  | V7
  | V8
  | V9
  | V10
  | V11
  | V12
  | V13
  | V14 (m : MetadataV14)
deriving DecidableEq

/-- The `version` accessor of `RuntimeMetadata`. -/
def RuntimeMetadata.version : RuntimeMetadata → Nat
  | RuntimeMetadata.V0 => 0
  | RuntimeMetadata.V1 => 1
  | RuntimeMetadata.V2 => 2
  | RuntimeMetadata.V3 => 3
  | RuntimeMetadata.V4 => 4
  | RuntimeMetadata.V5 => 5
  | RuntimeMetadata.V6 => 6
  | RuntimeMetadata.V7 => 7
  | RuntimeMetadata.V8 => 8
  | RuntimeMetadata.V9 => 9
  | RuntimeMetadata.V10 => 10
  | RuntimeMetadata.V11 => 11
  | RuntimeMetadata.V12 => 12
  | RuntimeMetadata.V13 => 13
  | RuntimeMetadata.V14 _ => 14

/-- Whether a `RuntimeMetadata` value is the V14 variant. -/
def RuntimeMetadata.isV14 : RuntimeMetadata → Bool
  | RuntimeMetadata.V14 _ => true
  | _ => false

/-- Embedding of `Metadata::from_runtime_metadata` (`metadata/mod.rs` lines
82-90): the V14 variant is handed to the version-14 converter, every other
variant returns `UnsupportedVersion` carrying its version number. -/
def Metadata.from_runtime_metadata (rm : RuntimeMetadata) : Except MetadataError Metadata :=
  match rm with
  | RuntimeMetadata.V14 meta_v14 => version14_decode meta_v14
  | unsupported => Except.error (MetadataError.UnsupportedVersion unsupported.version)

/-- Little-endian interpretation of a list of bytes as a natural number. -/
def fromLE : List Nat → Nat
  | [] => 0
  | b :: bs => b + 256 * fromLE bs

/-- Little-endian byte representation: `toLE n v` is the `n`-byte
little-endian encoding of `v` (modulo `2 ^ (8 * n)`). -/
def toLE : Nat → Nat → List Nat
  | 0, _ => []
  | n + 1, v => v % 256 :: toLE n (v / 256)

/-- Modelled from the spec: the SCALE parse of the V14 payload lives in the
external `frame_metadata` and `scale-info` crates, outside this repository;
no claim in this development depends on its result, so it is represented by
a parser that rejects its input. The magic-prefix and version-byte handling
of the loader, which the claims do concern, does not route through it. -/
def decodeMetadataV14Bytes (_bytes : List Nat) :
    Except String (MetadataV14 × List Nat) :=
  Except.error "V14 payload parse not modelled"

/-- Byte-level decode of the `RuntimeMetadata` enum as performed by the
derived SCALE `Decode` of the `frame_metadata` crate: one byte selects the
variant; the deprecated versions 0 through 13 carry a payload whose decode
always fails with a codec error, variant indexes above 14 are invalid, and
14 parses the V14 payload. -/
def decodeRuntimeMetadataBytes : List Nat → Except String (RuntimeMetadata × List Nat)
  | [] => Except.error "Not enough data to fill buffer"
  | v :: rest =>
    if v ≤ 13 then Except.error "Decoding is not supported"
    else if v = 14 then
      (decodeMetadataV14Bytes rest).map (fun mr => (RuntimeMetadata.V14 mr.1, mr.2))
    else Except.error "Could not decode RuntimeMetadata, variant does not exist"

/-- Embedding of `Metadata::from_bytes` (`metadata/mod.rs` lines 75-79):
SCALE-decode a `RuntimeMetadataPrefixed` pair and hand its second component
to `from_runtime_metadata`. The derived decode of the prefixed pair reads
the leading four bytes as a little-endian `u32` with no validation, and the
source then discards that number (`meta.1` is used, `meta.0` never is): the
magic prefix is not checked. Codec failures are converted by the `From`
instance into `MetadataError::CodecError`. -/
def Metadata.from_bytes (bytes : List Nat) : Except MetadataError Metadata :=
  match bytes with
  | _m0 :: _m1 :: _m2 :: _m3 :: rest =>
    match decodeRuntimeMetadataBytes rest with
    | Except.error s => Except.error (MetadataError.CodecError s)
    | Except.ok (rm, _) => Metadata.from_runtime_metadata rm
  | _ => Except.error (MetadataError.CodecError "Not enough data to fill buffer")

/-! ## Value model (`src/core_v14/src/value.rs`) -/

/-- Primitive decoded values (`value::Primitive`). The Rust `char` payload is
modelled as its Unicode scalar value, `String` as its UTF-8 bytes, and
`u256`/`i256` keep their raw 32-byte representation as in the source. -/
inductive Primitive where
  | Bool (b : Bool)
  | Char (scalar : Nat)
  | Str (utf8 : List Nat)
  | U8 (n : Nat)
  | U16 (n : Nat)
  | U32 (n : Nat)
  | U64 (n : Nat)
  | U128 (n : Nat)
  | U256 (bytes : List Nat)
  | I8 (i : Int)
  | I16 (i : Int)
  | I32 (i : Int)
  | I64 (i : Int)
  | I128 (i : Int)
  | I256 (bytes : List Nat)
deriving DecidableEq

mutual
/-- Decoded values (`value::Value`): composites, variants, sequences,
bit sequences and primitives. The `Sequence` payload is a `Vec<Value>` and
the `BitSequence` payload is the fixed `BitVec<Lsb0, u8>` type of
`value.rs` line 163, modelled as its list of bits. -/
inductive Value where
  | Composite (c : Composite)
  | Variant (v : Variant)
  | Sequence (xs : List Value)
  | BitSequence (bits : List Bool)
  | Primitive (p : Primitive)

/-- Named or unnamed field collections (`value::Composite`). -/
inductive Composite where
  | Named (fields : List (String × Value))
  | Unnamed (fields : List Value)

/-- An enum variant value (`value::Variant`): name plus field values. -/
inductive Variant where
  | mk (name : String) (values : Composite)
end

/-- Name accessor of a variant value. -/
def Variant.name : Variant → String
  | Variant.mk n _ => n

/-- Field-values accessor of a variant value. -/
def Variant.values : Variant → Composite
  | Variant.mk _ vs => vs

/-! ## Decode errors and the byte cursor

The decoder module of the repository is not among the provided sources
(only its tests are), so everything from here on is modelled from the
specification, sections 4.1, 4.2, 4.5, 4.6 and 7. -/

/-- Modelled from the spec: the decode-time error kinds of spec section 7.
Metadata-construction errors live in `MetadataError` above, as in the
source. `CompactOverflow` carries the declared width and the decoded value
(the value stands in for the raw value bytes). `FuelExhausted` is an
artifact of the fuel-based embedding of recursion and is produced only when
the recursion fuel runs out. -/
inductive DecodeError where
  | UnsupportedExtrinsicVersion (got expected : Nat)
  | TypeNotFound (id : Nat)
  | ExpectedVariantType (got : String)
  | VariantNotFound (ty disc : Nat)
  | CallNotFound (pallet call : Nat)
  | UnexpectedEof (needed got offset : Nat)
  | TrailingBytes (remaining offset : Nat)
  | CompactOverflow (declaredWidth value : Nat)
  | InvalidBool (b : Nat)
  | InvalidChar (code : Nat)
  | InvalidUtf8
  | UnsupportedTypeDefinition (kind : String)
  | FuelExhausted
deriving DecidableEq

/-- Modelled from the spec (section 4.1): the byte cursor is the remaining
input together with the offset of its first byte in the original input. -/
structure Cursor where
  data : List Nat
  offset : Nat
deriving DecidableEq

/-- Modelled from the spec (section 4.1): read one byte, failing
`UnexpectedEof` on empty input. -/
def readByte (c : Cursor) : Except DecodeError (Nat × Cursor) :=
  match c.data with
  | [] => Except.error (DecodeError.UnexpectedEof 1 0 c.offset)
  | b :: rest => Except.ok (b, ⟨rest, c.offset + 1⟩)

/-- Modelled from the spec (section 4.1): read a run of `n` bytes, failing
`UnexpectedEof` when fewer remain. -/
def readBytes (c : Cursor) (n : Nat) : Except DecodeError (List Nat × Cursor) :=
  if c.data.length < n then
    Except.error (DecodeError.UnexpectedEof n c.data.length c.offset)
  else Except.ok (c.data.take n, ⟨c.data.drop n, c.offset + n⟩)

/-- Modelled from the spec (section 4.2): the compact codec. The low two
bits of the first byte select the mode; modes 0, 1 and 2 hold the value in
the remaining 6, 14 and 30 bits, and mode 3 reads `upper six bits + 4`
further bytes as a little-endian integer. All four modes are accepted,
minimal or not. -/
def readCompact (c : Cursor) : Except DecodeError (Nat × Cursor) := do
  let (b, c1) ← readByte c
  match b % 4 with
  | 0 => Except.ok (b / 4, c1)
  | 1 => do
    let (b1, c2) ← readByte c1
    Except.ok ((b + 256 * b1) / 4, c2)
  | 2 => do
    let (b1, c2) ← readByte c1
    let (b2, c3) ← readByte c2
    let (b3, c4) ← readByte c3
    Except.ok ((b + 256 * b1 + 65536 * b2 + 16777216 * b3) / 4, c4)
  | _ => do
    let (bs, c2) ← readBytes c1 (b / 4 + 4)
    Except.ok (fromLE bs, c2)

/-- Modelled from the spec (section 4.2): a compact read whose caller
expects a 32-bit value; values above `u32::MAX` fail `CompactOverflow`. -/
def readCompactU32 (c : Cursor) : Except DecodeError (Nat × Cursor) := do
  let (v, c1) ← readCompact c
  if v < 2 ^ 32 then Except.ok (v, c1)
  else Except.error (DecodeError.CompactOverflow 32 v)

/-- Base-256 digit count of a value, bounded by explicit fuel so that it
reduces in the kernel; with fuel at least the value itself the bound never
bites. -/
def byteLenAux : Nat → Nat → Nat
  | 0, _ => 0
  | fuel + 1, v => if v = 0 then 0 else byteLenAux fuel (v / 256) + 1

/-- Number of bytes in the little-endian representation of a value. -/
def byteLen (v : Nat) : Nat := byteLenAux v v

/-- Modelled from the spec (sections 4.2 and 8): fresh compact encoding of a
value, using the shortest mode whose value field fits it: the one-byte mode
holds 6 value bits, the two-byte mode 14, the four-byte mode 30, and beyond
`2 ^ 30 - 1` the big-integer mode carries a minimal (at least four byte)
little-endian payload. -/
def encodeCompact (v : Nat) : List Nat :=
  if v ≤ 63 then [4 * v]
  else if v < 2 ^ 14 then [(4 * v + 1) % 256, (4 * v + 1) / 256]
  else if v < 2 ^ 30 then
    [(4 * v + 2) % 256, (4 * v + 2) / 256 % 256,
     (4 * v + 2) / 65536 % 256, (4 * v + 2) / 16777216 % 256]
  else
    (4 * (max 4 (byteLen v) - 4) + 3) :: toLE (max 4 (byteLen v)) v

/-- Continuation-byte test for UTF-8 validation. -/
def isUtf8Cont (b : Nat) : Bool :=
  128 ≤ b && b < 192

/-- Standard UTF-8 well-formedness check over a byte list, rejecting
overlong forms, surrogates and out-of-range sequences. -/
def isValidUtf8 : List Nat → Bool
  | [] => true
  | b :: rest =>
    if b < 128 then isValidUtf8 rest
    else if b < 194 then false
    else if b < 224 then
      match rest with
      | b1 :: r => isUtf8Cont b1 && isValidUtf8 r
      | [] => false
    else if b < 240 then
      match rest with
      | b1 :: b2 :: r =>
        isUtf8Cont b1 && isUtf8Cont b2 && (b != 224 || 160 ≤ b1) &&
          (b != 237 || b1 < 160) && isValidUtf8 r
      | _ => false
    else if b < 245 then
      match rest with
      | b1 :: b2 :: b3 :: r =>
        isUtf8Cont b1 && isUtf8Cont b2 && isUtf8Cont b3 &&
          (b != 240 || 144 ≤ b1) && (b != 244 || b1 < 144) && isValidUtf8 r
      | _ => false
    else false

/-- Two's-complement reinterpretation of an unsigned `bits`-bit value. -/
def toSigned (bits v : Nat) : Int :=
  if v < 2 ^ (bits - 1) then (v : Int) else (v : Int) - 2 ^ bits

/-- Modelled from the spec (section 4.5, Primitive case): fixed-width
little-endian reads for the integer kinds, one validated byte for `bool`,
four validated little-endian bytes for `char`, a compact-length-prefixed
validated byte run for `str`, and raw 32-byte payloads for the 256-bit
kinds. -/
def decodePrimitive (p : TypeDefPrimitive) (c : Cursor) :
    Except DecodeError (Value × Cursor) :=
  match p with
  | TypeDefPrimitive.bool => do
    let (b, c1) ← readByte c
    if b = 0 then Except.ok (Value.Primitive (Primitive.Bool false), c1)
    else if b = 1 then Except.ok (Value.Primitive (Primitive.Bool true), c1)
    else Except.error (DecodeError.InvalidBool b)
  | TypeDefPrimitive.char => do
    let (bs, c1) ← readBytes c 4
    let code := fromLE bs
    if code < 55296 ∨ (57344 ≤ code ∧ code ≤ 1114111) then
      Except.ok (Value.Primitive (Primitive.Char code), c1)
    else Except.error (DecodeError.InvalidChar code)
  | TypeDefPrimitive.str => do
    let (n, c1) ← readCompactU32 c
    let (bs, c2) ← readBytes c1 n
    if isValidUtf8 bs then Except.ok (Value.Primitive (Primitive.Str bs), c2)
    else Except.error DecodeError.InvalidUtf8
  | TypeDefPrimitive.u8 => do
    let (bs, c1) ← readBytes c 1
    Except.ok (Value.Primitive (Primitive.U8 (fromLE bs)), c1)
  | TypeDefPrimitive.u16 => do
    let (bs, c1) ← readBytes c 2
    Except.ok (Value.Primitive (Primitive.U16 (fromLE bs)), c1)
  | TypeDefPrimitive.u32 => do
    let (bs, c1) ← readBytes c 4
    Except.ok (Value.Primitive (Primitive.U32 (fromLE bs)), c1)
  | TypeDefPrimitive.u64 => do
    let (bs, c1) ← readBytes c 8
    Except.ok (Value.Primitive (Primitive.U64 (fromLE bs)), c1)
  | TypeDefPrimitive.u128 => do
    let (bs, c1) ← readBytes c 16
    Except.ok (Value.Primitive (Primitive.U128 (fromLE bs)), c1)
  | TypeDefPrimitive.u256 => do
    let (bs, c1) ← readBytes c 32
    Except.ok (Value.Primitive (Primitive.U256 bs), c1)
  | TypeDefPrimitive.i8 => do
    let (bs, c1) ← readBytes c 1
    Except.ok (Value.Primitive (Primitive.I8 (toSigned 8 (fromLE bs))), c1)
  | TypeDefPrimitive.i16 => do
    let (bs, c1) ← readBytes c 2
    Except.ok (Value.Primitive (Primitive.I16 (toSigned 16 (fromLE bs))), c1)
  | TypeDefPrimitive.i32 => do
    let (bs, c1) ← readBytes c 4
    Except.ok (Value.Primitive (Primitive.I32 (toSigned 32 (fromLE bs))), c1)
  | TypeDefPrimitive.i64 => do
    let (bs, c1) ← readBytes c 8
    Except.ok (Value.Primitive (Primitive.I64 (toSigned 64 (fromLE bs))), c1)
  | TypeDefPrimitive.i128 => do
    let (bs, c1) ← readBytes c 16
    Except.ok (Value.Primitive (Primitive.I128 (toSigned 128 (fromLE bs))), c1)
  | TypeDefPrimitive.i256 => do
    let (bs, c1) ← readBytes c 32
    Except.ok (Value.Primitive (Primitive.I256 bs), c1)

/-- Bit width of an unsigned integer primitive, `none` for every other
kind; a compact wrapper must bottom out in one of these. -/
def compactWidth : TypeDefPrimitive → Option Nat
  | TypeDefPrimitive.u8 => some 8
  | TypeDefPrimitive.u16 => some 16
  | TypeDefPrimitive.u32 => some 32
  | TypeDefPrimitive.u64 => some 64
  | TypeDefPrimitive.u128 => some 128
  | TypeDefPrimitive.u256 => some 256
  | _ => none

/-- Construction of the unsigned primitive value of the given kind from a
decoded natural number. Kinds other than the unsigned integers are never
reached (`compactWidth` gates them) and default to `U8`. -/
def mkUnsigned (p : TypeDefPrimitive) (v : Nat) : Primitive :=
  match p with
  | TypeDefPrimitive.u8 => Primitive.U8 v
  | TypeDefPrimitive.u16 => Primitive.U16 v
  | TypeDefPrimitive.u32 => Primitive.U32 v
  | TypeDefPrimitive.u64 => Primitive.U64 v
  | TypeDefPrimitive.u128 => Primitive.U128 v
  | TypeDefPrimitive.u256 => Primitive.U256 (toLE 32 v)
  | _ => Primitive.U8 v

/-- Modelled from the spec (section 4.2): compact decode of an integer whose
declared primitive kind is `p`; a decoded value that does not fit the
declared width fails `CompactOverflow`. -/
def decodeCompactPrim (p : TypeDefPrimitive) (c : Cursor) :
    Except DecodeError (Value × Cursor) :=
  match compactWidth p with
  | none => Except.error (DecodeError.UnsupportedTypeDefinition "compact of non-integer")
  | some w => do
    let (v, c1) ← readCompact c
    if v < 2 ^ w then Except.ok (Value.Primitive (mkUnsigned p v), c1)
    else Except.error (DecodeError.CompactOverflow w v)

/-- Modelled from the spec (sections 4.5 and 9, Compact case): peel
single-field unnamed composites and one-element tuples from a compact
wrapper until an unsigned integer primitive is found, counting the peeled
wrappers. Fuel bounds the walk through the (possibly cyclic) registry. -/
def compactPeel (types : List PortableType) : Nat → Nat → Except DecodeError (Nat × TypeDefPrimitive)
  | 0, _ => Except.error DecodeError.FuelExhausted
  | fuel + 1, ty =>
    match resolveTy types ty with
    | none => Except.error (DecodeError.TypeNotFound ty)
    | some t =>
      match t.type_def with
      | TypeDef.primitive p =>
        match compactWidth p with
        | some _ => Except.ok (0, p)
        | none => Except.error (DecodeError.UnsupportedTypeDefinition "compact of non-integer")
      | TypeDef.composite [f] =>
        match f.name with
        | none => (compactPeel types fuel f.ty).map (fun r => (r.1 + 1, r.2))
        | some _ => Except.error (DecodeError.UnsupportedTypeDefinition "compact wrapper with named field")
      | TypeDef.tuple [inner] =>
        (compactPeel types fuel inner).map (fun r => (r.1 + 1, r.2))
      | _ => Except.error (DecodeError.UnsupportedTypeDefinition "compact wrapper")

/-- Rewrap a decoded compact primitive in the shape that was peeled:
each peeled wrapper (single-field unnamed composite or one-element tuple)
becomes one unnamed composite layer, as in the spec examples. -/
def rewrap : Nat → Value → Value
  | 0, v => v
  | n + 1, v => Value.Composite (Composite.Unnamed [rewrap n v])

/-- Bits of a `bits`-wide word, least significant first. -/
def natBitsLsb : Nat → Nat → List Bool
  | 0, _ => []
  | k + 1, v => decide (v % 2 = 1) :: natBitsLsb k (v / 2)

/-- Read `count` storage words of `bytesPerWord` bytes each, little-endian. -/
def readWords (bytesPerWord : Nat) : Nat → Cursor → Except DecodeError (List Nat × Cursor)
  | 0, c => Except.ok ([], c)
  | n + 1, c => do
    let (bs, c1) ← readBytes c bytesPerWord
    let (ws, c2) ← readWords bytesPerWord n c1
    Except.ok (fromLE bs :: ws, c2)

/-- Resolution of the bit-sequence storage type id to its word width in
bits: the store must be one of the unsigned primitives u8, u16, u32, u64. -/
def storeWidthOf (types : List PortableType) (store : Nat) : Except DecodeError Nat :=
  match resolveTy types store with
  | none => Except.error (DecodeError.TypeNotFound store)
  | some t =>
    match t.type_def with
    | TypeDef.primitive TypeDefPrimitive.u8 => Except.ok 8
    | TypeDef.primitive TypeDefPrimitive.u16 => Except.ok 16
    | TypeDef.primitive TypeDefPrimitive.u32 => Except.ok 32
    | TypeDef.primitive TypeDefPrimitive.u64 => Except.ok 64
    | _ => Except.error (DecodeError.UnsupportedTypeDefinition "bit store")

/-- Resolution of the bit-order type id to its flag, `true` for `Lsb0`,
via the path of the marker type, as scale-info represents bit orders. -/
def bitOrderOf (types : List PortableType) (order : Nat) : Except DecodeError Bool :=
  match resolveTy types order with
  | none => Except.error (DecodeError.TypeNotFound order)
  | some t =>
    match t.path.getLast? with
    | some "Lsb0" => Except.ok true
    | some "Msb0" => Except.ok false
    | _ => Except.error (DecodeError.UnsupportedTypeDefinition "bit order")

/-- Modelled from the spec (section 4.5, BitSequence case): read a compact
bit count, resolve the storage width and bit order from the two decorative
type ids, read the minimum number of whole storage words, and return the
first `n` bits in the stated order. Whatever the declared storage word and
order, the result is carried by the single fixed bit-sequence value
representation (`Value.BitSequence`, the `BitVec<Lsb0, u8>` of
`value.rs`). -/
def decodeBitSeq (types : List PortableType) (store order : Nat) (c : Cursor) :
    Except DecodeError (Value × Cursor) := do
  let w ← storeWidthOf types store
  let lsb ← bitOrderOf types order
  let (n, c1) ← readCompactU32 c
  let (ws, c2) ← readWords (w / 8) ((n + w - 1) / w) c1
  let bits := (ws.map (fun v => if lsb then natBitsLsb w v else (natBitsLsb w v).reverse)).flatten
  Except.ok (Value.BitSequence (bits.take n), c2)

/-- Pairing of field names with decoded field values; only used when every
field is named. -/
def zipNamed : List Field → List Value → List (String × Value)
  | f :: fs, v :: vs => (f.name.getD "", v) :: zipNamed fs vs
  | _, _ => []

/-- Modelled from the spec (section 4.5, Composite case): a composite value
is named when the field list is nonempty and every field carries a name,
unnamed otherwise (an empty composite yields unnamed `[]`). -/
def mkComposite (fields : List Field) (vs : List Value) : Composite :=
  if fields.isEmpty then Composite.Unnamed vs
  else if fields.all (fun f => f.name.isSome) then Composite.Named (zipNamed fields vs)
  else Composite.Unnamed vs

/-- Modelled from the spec (section 4.5): the type-directed value decoder,
decoding the values of a list of type ids in order. Dispatch is by the
resolved definition exactly as the spec lists it; recursion is bounded by
fuel (structural recursion is impossible over a possibly cyclic registry),
and exhausted fuel surfaces as the model-only `FuelExhausted` error. -/
def decodeMany (types : List PortableType) : Nat → List Nat → Cursor →
    Except DecodeError (List Value × Cursor)
  | _, [], c => Except.ok ([], c)
  | 0, _ :: _, _ => Except.error DecodeError.FuelExhausted
  | fuel + 1, ty :: tys, c => do
    let (v, c1) ← (do
      match resolveTy types ty with
      | none => Except.error (DecodeError.TypeNotFound ty)
      | some t =>
        match t.type_def with
        | TypeDef.composite fields => do
          let (vs, c1) ← decodeMany types fuel (fields.map Field.ty) c
          Except.ok (Value.Composite (mkComposite fields vs), c1)
        | TypeDef.variant vars => do
          let (d, c1) ← readByte c
          match vars.find? (fun v => v.index == d) with
          | none => Except.error (DecodeError.VariantNotFound ty d)
          | some var => do
            let (vs, c2) ← decodeMany types fuel (var.fields.map Field.ty) c1
            Except.ok (Value.Variant (Variant.mk var.name (mkComposite var.fields vs)), c2)
        | TypeDef.sequence elem => do
          let (n, c1) ← readCompactU32 c
          let (vs, c2) ← decodeMany types fuel (List.replicate n elem) c1
          Except.ok (Value.Sequence vs, c2)
        | TypeDef.array len elem => do
          let (vs, c1) ← decodeMany types fuel (List.replicate len elem) c
          Except.ok (Value.Sequence vs, c1)
        | TypeDef.tuple elems => do
          let (vs, c1) ← decodeMany types fuel elems c
          Except.ok (Value.Composite (Composite.Unnamed vs), c1)
        | TypeDef.primitive p => decodePrimitive p c
        | TypeDef.compact inner => do
          let (depth, p) ← compactPeel types fuel inner
          let (v, c1) ← decodeCompactPrim p c
          Except.ok (rewrap depth v, c1)
        | TypeDef.bitSequence store order => decodeBitSeq types store order c
      : Except DecodeError (Value × Cursor))
    let (vs, c2) ← decodeMany types fuel tys c1
    Except.ok (v :: vs, c2)

/-- One dispatch step of the decoder: the decode of a single value whose
recursive occurrences run at the given fuel. This is literally the head
block of `decodeMany` and is definitionally equal to it (see
`decodeMany_cons`); it exists so that theorems can unfold one decoding step
at a time. -/
def decodeHead (types : List PortableType) (fuel : Nat) (ty : Nat) (c : Cursor) :
    Except DecodeError (Value × Cursor) := do
  match resolveTy types ty with
  | none => Except.error (DecodeError.TypeNotFound ty)
  | some t =>
    match t.type_def with
    | TypeDef.composite fields => do
      let (vs, c1) ← decodeMany types fuel (fields.map Field.ty) c
      Except.ok (Value.Composite (mkComposite fields vs), c1)
    | TypeDef.variant vars => do
      let (d, c1) ← readByte c
      match vars.find? (fun v => v.index == d) with
      | none => Except.error (DecodeError.VariantNotFound ty d)
      | some var => do
        let (vs, c2) ← decodeMany types fuel (var.fields.map Field.ty) c1
        Except.ok (Value.Variant (Variant.mk var.name (mkComposite var.fields vs)), c2)
    | TypeDef.sequence elem => do
      let (n, c1) ← readCompactU32 c
      let (vs, c2) ← decodeMany types fuel (List.replicate n elem) c1
      Except.ok (Value.Sequence vs, c2)
    | TypeDef.array len elem => do
      let (vs, c1) ← decodeMany types fuel (List.replicate len elem) c
      Except.ok (Value.Sequence vs, c1)
    | TypeDef.tuple elems => do
      let (vs, c1) ← decodeMany types fuel elems c
      Except.ok (Value.Composite (Composite.Unnamed vs), c1)
    | TypeDef.primitive p => decodePrimitive p c
    | TypeDef.compact inner => do
      let (depth, p) ← compactPeel types fuel inner
      let (v, c1) ← decodeCompactPrim p c
      Except.ok (rewrap depth v, c1)
    | TypeDef.bitSequence store order => decodeBitSeq types store order c

/-- Modelled from the spec (section 4.5): the single-value entry point
`decode(type_id, cursor)`, expressed through `decodeMany` on a one-element
type list. -/
def decodeValue (types : List PortableType) (fuel ty : Nat) (c : Cursor) :
    Except DecodeError (Value × Cursor) := do
  let (vs, c1) ← decodeMany types fuel [ty] c
  match vs with
  | [v] => Except.ok (v, c1)
  | _ => Except.error DecodeError.FuelExhausted

/-- The signature area of a signed extrinsic: address, signature and the
named signed-extension payloads, spec section 6. -/
structure SignatureInfo where
  address : Value
  signature : Value
  extensions : List (String × Value)

/-- The decoded extrinsic record of spec section 6: pallet name, call name,
argument values, and the optional signature area. -/
structure DecodedExtrinsic where
  pallet : String
  call : String
  arguments : List Value
  signature : Option SignatureInfo

/-- Modelled from the spec (section 4.6 step 2): decode each signed
extension's included payload in declared order, labelling each with its
identifier. -/
def decodeExtensions (types : List PortableType) (fuel : Nat) :
    List SignedExtensionMetadata → Cursor →
    Except DecodeError (List (String × Value) × Cursor)
  | [], c => Except.ok ([], c)
  | e :: es, c => do
    let (v, c1) ← decodeValue types fuel e.ty c
    let (rest, c2) ← decodeExtensions types fuel es c1
    Except.ok ((e.identifier, v) :: rest, c2)

/-- Modelled from the spec (section 4.6): the unwrapped-extrinsic body
decode, before the trailing-bytes check. One version byte whose high bit
selects signed, whose low seven bits must equal the metadata's extrinsic
version; for signed extrinsics the signature area (address, signature,
signed-extension payloads); then one pallet byte and one call byte looked up
through the calls descriptor (`call_variant_by_enum_index` of the metadata
module), failing `CallNotFound` on a miss; then the call's fields as the
arguments. -/
def decodeUnwrappedInner (m : Metadata) (fuel : Nat) (c : Cursor) :
    Except DecodeError (DecodedExtrinsic × Cursor) := do
  let (vb, c1) ← readByte c
  if vb % 128 ≠ m.extrinsic.version then
    Except.error (DecodeError.UnsupportedExtrinsicVersion (vb % 128) m.extrinsic.version)
  else do
    let (sig, c2) ←
      (if 128 ≤ vb then do
        let (addr, ca) ← decodeValue m.types fuel m.extrinsic.address_ty c1
        let (sg, cb) ← decodeValue m.types fuel m.extrinsic.signature_ty ca
        let (exts, cc) ← decodeExtensions m.types fuel m.extrinsic.signed_extensions cb
        Except.ok (some (SignatureInfo.mk addr sg exts), cc)
      else Except.ok (none, c1)
      : Except DecodeError (Option SignatureInfo × Cursor))
    let (pi, c3) ← readByte c2
    let (ci, c4) ← readByte c3
    match m.call_variant_by_enum_index pi ci with
    | none => Except.error (DecodeError.CallNotFound pi ci)
    | some (pname, var) => do
      let (args, c5) ← decodeMany m.types fuel (var.fields.map Field.ty) c4
      Except.ok (DecodedExtrinsic.mk pname var.name args sig, c5)

/-- Fuel budget for a top-level decode: generous in the input length and
registry size, so that any decode the input can drive to completion has
enough fuel. -/
def topFuel (m : Metadata) (bytes : List Nat) : Nat :=
  8 * (bytes.length + m.types.length) + 64

/-- Modelled from the spec (section 4.6): `decode_unwrapped_extrinsic`.
Decode the unwrapped body and then require the cursor to be exhausted;
remaining input fails `TrailingBytes` with the remaining count and the
offset reached. -/
def decodeUnwrappedExtrinsic (m : Metadata) (bytes : List Nat) :
    Except DecodeError DecodedExtrinsic := do
  let (ext, c1) ← decodeUnwrappedInner m (topFuel m bytes) ⟨bytes, 0⟩
  if c1.data.isEmpty then Except.ok ext
  else Except.error (DecodeError.TrailingBytes c1.data.length c1.offset)

/-- Whether a type definition is a variant definition. -/
def TypeDef.isVariant : TypeDef → Bool
  | TypeDef.variant _ => true
  | _ => false

/-! ## Concrete fixtures

Small registries and metadata values reconstructing, from the spec's
concrete scenarios and the decoder tests, exactly the types the tested
extrinsics reference. The full Polkadot metadata blob used by the tests is
an input data file, not source code; these fixtures carry the same shapes
for the pallets and calls involved. -/

/-- The `Auctions.bid` call variant: discriminant 1, five compact-encoded
arguments, the first a compact-wrapped one-field composite
(`tests/decode_extrinsics.rs`, `auctions_bid_unsigned`). -/
def bidVariant : VariantDef :=
  ⟨"bid", 1,
   [⟨some "para", 2⟩, ⟨some "auction_index", 3⟩, ⟨some "first_slot", 3⟩,
    ⟨some "last_slot", 3⟩, ⟨some "amount", 5⟩]⟩

/-- Registry for the `Auctions.bid` scenario: ids 0 `u32`, 1 the one-field
unnamed composite `ParaId`, 2 `Compact<ParaId>`, 3 `Compact<u32>`, 4 `u128`,
5 `Compact<u128>`, 6 the Auctions calls variant type. -/
def auctionsTypes : List PortableType :=
  [⟨[], TypeDef.primitive TypeDefPrimitive.u32⟩,
   ⟨["polkadot_parachain", "primitives", "Id"], TypeDef.composite [⟨none, 0⟩]⟩,
   ⟨[], TypeDef.compact 1⟩,
   ⟨[], TypeDef.compact 0⟩,
   ⟨[], TypeDef.primitive TypeDefPrimitive.u128⟩,
   ⟨[], TypeDef.compact 4⟩,
   ⟨["polkadot_runtime_common", "auctions", "pallet", "Call"],
    TypeDef.variant [bidVariant]⟩]

/-- Metadata for the `Auctions.bid` scenario: extrinsic version 4, the
Auctions pallet at pallet index 72 with its call discriminant 1 mapped to
variant position 0 (the discriminant is not a list position). -/
def auctionsMeta : Metadata :=
  ⟨⟨4, [], 0, 0⟩,
   [(72, ⟨"Auctions", some ⟨6, [(1, 0)]⟩⟩)],
   auctionsTypes⟩

/-- The unwrapped extrinsic bytes 0x04480104080c1014 of the
`auctions_bid_unsigned` test. -/
def auctionsBytes : List Nat :=
  [0x04, 0x48, 0x01, 0x04, 0x08, 0x0c, 0x10, 0x14]

/-- The five expected `Auctions.bid` arguments of the test and spec
scenario 1. -/
def expectedAuctionsArgs : List Value :=
  [Value.Composite (Composite.Unnamed [Value.Primitive (Primitive.U32 1)]),
   Value.Primitive (Primitive.U32 2),
   Value.Primitive (Primitive.U32 3),
   Value.Primitive (Primitive.U32 4),
   Value.Primitive (Primitive.U128 5)]

/-- Registry for the `TechnicalCommittee.execute` scenario: ids 0 `u32`,
1 `Compact<u32>`, 2 `u128`, 3 `Compact<u128>`, 4 `AccountId32`, 5 `u8`,
6 `[u8; 32]`, 7 `MultiAddress`, 8 the Balances calls type, 9 the outer
runtime `Call` type (Balances at pallet discriminant 5), 10 the
TechnicalCommittee calls type (`execute` at call discriminant 1). -/
def techTypes : List PortableType :=
  [⟨[], TypeDef.primitive TypeDefPrimitive.u32⟩,
   ⟨[], TypeDef.compact 0⟩,
   ⟨[], TypeDef.primitive TypeDefPrimitive.u128⟩,
   ⟨[], TypeDef.compact 2⟩,
   ⟨["sp_core", "crypto", "AccountId32"], TypeDef.composite [⟨none, 6⟩]⟩,
   ⟨[], TypeDef.primitive TypeDefPrimitive.u8⟩,
   ⟨[], TypeDef.array 32 5⟩,
   ⟨["sp_runtime", "multiaddress", "MultiAddress"],
    TypeDef.variant [⟨"Id", 0, [⟨none, 4⟩]⟩]⟩,
   ⟨["pallet_balances", "pallet", "Call"],
    TypeDef.variant [⟨"transfer", 0, [⟨some "dest", 7⟩, ⟨some "value", 3⟩]⟩]⟩,
   ⟨["polkadot_runtime", "Call"],
    TypeDef.variant [⟨"Balances", 5, [⟨none, 8⟩]⟩]⟩,
   ⟨["pallet_collective", "pallet", "Call"],
    TypeDef.variant [⟨"execute", 1, [⟨some "proposal", 9⟩, ⟨some "length_bound", 1⟩]⟩]⟩]

/-- Metadata for the `TechnicalCommittee.execute` scenario: extrinsic
version 4, the TechnicalCommittee pallet at pallet index 16, call
discriminant 1 at variant position 0. -/
def techMeta : Metadata :=
  ⟨⟨4, [], 0, 0⟩,
   [(16, ⟨"TechnicalCommittee", some ⟨10, [(1, 0)]⟩⟩)],
   techTypes⟩

/-- The 32 account-id bytes appearing in the nested-call test extrinsic. -/
def accountBytes : List Nat :=
  [0x1c, 0xbd, 0x2d, 0x43, 0x53, 0x0a, 0x44, 0x70, 0x5a, 0xd0, 0x88, 0xaf,
   0x31, 0x3e, 0x18, 0xf8, 0x0b, 0x53, 0xef, 0x16, 0xb3, 0x61, 0x77, 0xcd,
   0x4b, 0x77, 0xb8, 0x46, 0xf2, 0xa5, 0xf0, 0x7c]

/-- The unwrapped extrinsic bytes
0x0410010500001cbd...f07ce5c0d107 of the
`technical_committee_execute_unsigned` test (spec scenario 3). -/
def techBytes : List Nat :=
  [0x04, 0x10, 0x01, 0x05, 0x00, 0x00] ++ accountBytes ++ [0xe5, 0xc0, 0xd1, 0x07]

/-- The expected decoded arguments of the nested-call scenario: the first
argument is the `Balances` variant wrapping the `transfer` variant, the
second the primitive `u32` 500. -/
def expectedTechArgs : List Value :=
  [Value.Variant (Variant.mk "Balances" (Composite.Unnamed
     [Value.Variant (Variant.mk "transfer" (Composite.Named
        [("dest", Value.Variant (Variant.mk "Id" (Composite.Unnamed
            [Value.Composite (Composite.Unnamed
              [Value.Sequence (accountBytes.map (fun b => Value.Primitive (Primitive.U8 b)))])]))),
         ("value", Value.Primitive (Primitive.U128 12345))]))])),
   Value.Primitive (Primitive.U32 500)]

/-- A metadata value whose registry holds a single non-variant type and no
pallets; used to exhibit the silent `none` results of `get_variant`. -/
def primOnlyMeta : Metadata :=
  ⟨⟨4, [], 0, 0⟩, [], [⟨[], TypeDef.primitive TypeDefPrimitive.u32⟩]⟩

/-- Registry fixture for bit sequences: id 0 the `u16` storage primitive,
id 1 the `Msb0` order marker, id 2 a bit sequence stored in `u16` words
with most-significant-bit-first order. -/
def bitsTypes : List PortableType :=
  [⟨[], TypeDef.primitive TypeDefPrimitive.u16⟩,
   ⟨["bitvec", "order", "Msb0"], TypeDef.composite []⟩,
   ⟨[], TypeDef.bitSequence 0 1⟩]

/-- Chains of compact wrappers, spec sections 4.5 and 9: a compact inner
type is either directly an unsigned integer primitive, or a single-field
unnamed composite or one-element tuple around a smaller chain. The middle
index counts the wrappers. -/
inductive CompactChain (types : List PortableType) : Nat → Nat → TypeDefPrimitive → Prop where
  | prim (ty : Nat) (t : PortableType) (p : TypeDefPrimitive) (w : Nat)
      (hres : resolveTy types ty = some t)
      (hdef : t.type_def = TypeDef.primitive p)
      (hw : compactWidth p = some w) :
      CompactChain types ty 0 p
  | composite (ty inner : Nat) (t : PortableType) (n : Nat) (p : TypeDefPrimitive)
      (hres : resolveTy types ty = some t)
      (hdef : t.type_def = TypeDef.composite [⟨none, inner⟩])
      (h : CompactChain types inner n p) :
      CompactChain types ty (n + 1) p
  | tuple (ty inner : Nat) (t : PortableType) (n : Nat) (p : TypeDefPrimitive)
      (hres : resolveTy types ty = some t)
      (hdef : t.type_def = TypeDef.tuple [inner])
      (h : CompactChain types inner n p) :
      CompactChain types ty (n + 1) p

/-! ## Stepping lemmas for the fuel-based decoder -/

theorem decodeMany_cons (types : List PortableType) (fuel ty : Nat) (tys : List Nat) (c : Cursor) :
    decodeMany types (fuel + 1) (ty :: tys) c = (do
      let (v, c1) ← decodeHead types fuel ty c
      let (vs, c2) ← decodeMany types fuel tys c1
      Except.ok (v :: vs, c2)) := rfl

theorem decodeMany_nil (types : List PortableType) (fuel : Nat) (c : Cursor) :
    decodeMany types fuel [] c = Except.ok ([], c) := by
  cases fuel <;> rfl

theorem decodeValue_succ (types : List PortableType) (fuel ty : Nat) (c : Cursor) :
    decodeValue types (fuel + 1) ty c = decodeHead types fuel ty c := by
  unfold decodeValue
  rw [decodeMany_cons]
  cases h : decodeHead types fuel ty c with
  | error e => rfl
  | ok vc =>
    obtain ⟨v, c1⟩ := vc
    simp only [decodeMany_nil]
    rfl

theorem bind_ok_ex {e a b : Type} (x : a) (f : a → Except e b) :
    (Bind.bind (Except.ok x) f : Except e b) = f x := rfl

theorem bind_error_ex {e a b : Type} (err : e) (f : a → Except e b) :
    (Bind.bind (Except.error err) f : Except e b) = Except.error err := rfl

theorem decodeUnwrapped_step (m : Metadata) (bytes : List Nat) :
    decodeUnwrappedExtrinsic m bytes =
      (match decodeUnwrappedInner m (topFuel m bytes) ⟨bytes, 0⟩ with
       | Except.error e => Except.error e
       | Except.ok (ext, c1) =>
         if c1.data.isEmpty then Except.ok ext
         else Except.error (DecodeError.TrailingBytes c1.data.length c1.offset)) := by
  unfold decodeUnwrappedExtrinsic
  cases h : decodeUnwrappedInner m (topFuel m bytes) ⟨bytes, 0⟩ with
  | error e => rfl
  | ok vc => obtain ⟨e0, c1⟩ := vc; rfl

theorem compactPeel_of_chain (types : List PortableType) (ty n : Nat) (p : TypeDefPrimitive)
    (h : CompactChain types ty n p) :
    ∀ fuel, n < fuel → compactPeel types fuel ty = Except.ok (n, p) := by
  induction h with
  | prim ty t p w hres hdef hw =>
    intro fuel hf
    cases fuel with
    | zero => omega
    | succ f => simp [compactPeel, hres, hdef, hw]
  | composite ty inner t n p hres hdef hch ih =>
    intro fuel hf
    cases fuel with
    | zero => omega
    | succ f => simp [compactPeel, hres, hdef, ih f (by omega), Except.map]
  | tuple ty inner t n p hres hdef hch ih =>
    intro fuel hf
    cases fuel with
    | zero => omega
    | succ f => simp [compactPeel, hres, hdef, ih f (by omega), Except.map]

theorem readCompact_mode0 (b : Nat) (rest : List Nat) (off : Nat) (hb : b % 4 = 0) :
    readCompact ⟨b :: rest, off⟩ = Except.ok (b / 4, ⟨rest, off + 1⟩) := by
  simp [readCompact, readByte, hb, bind_ok_ex]

theorem readCompact_mode1 (b b1 : Nat) (rest : List Nat) (off : Nat) (hb : b % 4 = 1) :
    readCompact ⟨b :: b1 :: rest, off⟩ =
      Except.ok ((b + 256 * b1) / 4, ⟨rest, off + 1 + 1⟩) := by
  simp [readCompact, readByte, hb, bind_ok_ex]

theorem readCompact_mode2 (b b1 b2 b3 : Nat) (rest : List Nat) (off : Nat) (hb : b % 4 = 2) :
    readCompact ⟨b :: b1 :: b2 :: b3 :: rest, off⟩ =
      Except.ok ((b + 256 * b1 + 65536 * b2 + 16777216 * b3) / 4,
                 ⟨rest, off + 1 + 1 + 1 + 1⟩) := by
  simp [readCompact, readByte, hb, bind_ok_ex]

theorem readCompact_mode3 (b : Nat) (bs rest : List Nat) (off : Nat) (hb : b % 4 = 3)
    (hlen : bs.length = b / 4 + 4) :
    readCompact ⟨b :: (bs ++ rest), off⟩ =
      Except.ok (fromLE bs, ⟨rest, off + 1 + bs.length⟩) := by
  simp only [readCompact, readByte, hb, bind_ok_ex]
  simp [readBytes, ← hlen, List.take_left, List.drop_left, bind_ok_ex]

theorem byteLenAux_zero (f : Nat) : byteLenAux f 0 = 0 := by
  cases f <;> rfl

theorem byteLenAux_step (f v : Nat) (h : v ≤ f) (hv : v ≠ 0) :
    byteLenAux f v = byteLenAux (f - 1) (v / 256) + 1 := by
  cases f with
  | zero => omega
  | succ f2 => simp [byteLenAux, hv]

theorem byteLen_eq_four (v : Nat) (h1 : 2 ^ 24 ≤ v) (h2 : v < 2 ^ 32) :
    byteLen v = 4 := by
  unfold byteLen
  rw [byteLenAux_step v v le_rfl (by omega)]
  rw [byteLenAux_step _ _ (by omega) (by omega)]
  rw [byteLenAux_step _ _ (by omega) (by omega)]
  rw [byteLenAux_step _ _ (by omega) (by omega)]
  have hz : v / 256 / 256 / 256 / 256 = 0 := by omega
  rw [hz, byteLenAux_zero]

theorem toLE_length (n : Nat) : ∀ v, (toLE n v).length = n := by
  induction n with
  | zero => intro v; rfl
  | succ k ih => intro v; simp [toLE, ih]

theorem fromLE_toLE (n : Nat) : ∀ v, v < 2 ^ (8 * n) → fromLE (toLE n v) = v := by
  induction n with
  | zero =>
    intro v hv
    interval_cases v
    rfl
  | succ k ih =>
    intro v hv
    have hdiv : v / 256 < 2 ^ (8 * k) := by
      rw [Nat.div_lt_iff_lt_mul (by norm_num : (0:Nat) < 256)]
      calc v < 2 ^ (8 * (k + 1)) := hv
        _ = 2 ^ (8 * k) * 256 := by rw [Nat.mul_succ, pow_add]; norm_num
    simp [toLE, fromLE, ih (v / 256) hdiv, Nat.mod_add_div]

/-! ## Claim theorems -/

/-- C1. For every `Metadata` value and every pair of pallet and call bytes,
`call_variant_by_enum_index` returns `some (name, variant)` exactly when the
pallet index resolves in the pallet map, the pallet has call data, the calls
type resolves to a variant type, the call discriminant is mapped by the
prebuilt `call_variant_indexes` map to a position, and the variant list has
a variant at that position; any miss yields `none`. The second part shows
on the Auctions fixture that the discriminant (1) is mapped through the
map to position 0 rather than being used as a list position (position 1
holds no variant at all). -/
theorem call_variant_by_enum_index_spec :
    (∀ (m : Metadata) (pallet call : Nat) (name : String) (v : VariantDef),
       m.call_variant_by_enum_index pallet call = some (name, v) ↔
         ∃ p, assocGet pallet m.pallets = some p ∧
         ∃ cs, p.calls = some cs ∧
         ∃ tdv, m.get_variant cs.calls_type_id = some tdv ∧
         ∃ i, assocGet call cs.call_variant_indexes = some i ∧
         tdv.get? i = some v ∧ name = p.name) ∧
    (auctionsMeta.call_variant_by_enum_index 72 1 = some ("Auctions", bidVariant) ∧
     (auctionsMeta.get_variant 6).bind (fun vs => vs.get? 1) = none) := by
  refine ⟨fun m pallet call name v => ?_, rfl, rfl⟩
  simp [Metadata.call_variant_by_enum_index, Option.bind_eq_some, Option.map_eq_some']
  tauto

/-- C3. `from_runtime_metadata` produces a `Metadata` only from the V14
variant; every other version yields `UnsupportedVersion` carrying that
version number. -/
theorem from_runtime_metadata_v14_only (rm : RuntimeMetadata) :
    (rm.isV14 = false →
       Metadata.from_runtime_metadata rm =
         Except.error (MetadataError.UnsupportedVersion rm.version)) ∧
    (∀ md, Metadata.from_runtime_metadata rm = Except.ok md →
       ∃ v14, rm = RuntimeMetadata.V14 v14) := by
  cases rm <;>
    simp [Metadata.from_runtime_metadata, RuntimeMetadata.isV14, RuntimeMetadata.version]

/-- Witness for C3: version 3 metadata is rejected with
`UnsupportedVersion 3`. -/
theorem from_runtime_metadata_v14_only_witness :
    Metadata.from_runtime_metadata RuntimeMetadata.V3 =
      Except.error (MetadataError.UnsupportedVersion 3) :=
  (from_runtime_metadata_v14_only RuntimeMetadata.V3).1 (by rfl)

/-- C4 counterexample. A metadata input whose four magic bytes are all zero
(not the `meta` magic 0x6d 0x65 0x74 0x61) followed by version byte 0 is
rejected with the generic `CodecError`, not with a `BadMagic` error kind;
indeed `MetadataError` has no `BadMagic` constructor at all. -/
theorem from_bytes_wrong_magic_not_bad_magic :
    Metadata.from_bytes [0, 0, 0, 0, 0] =
      Except.error (MetadataError.CodecError "Decoding is not supported") := rfl

/-- C4 as amended. The four-byte magic prefix is read but never validated:
`from_bytes` returns the same result whatever the four prefix bytes are,
and inputs whose payload cannot be decoded (here: any deprecated version
byte) surface as the generic `CodecError`. -/
theorem from_bytes_ignores_magic :
    (∀ (a b c d a2 b2 c2 d2 : Nat) (rest : List Nat),
       Metadata.from_bytes (a :: b :: c :: d :: rest) =
       Metadata.from_bytes (a2 :: b2 :: c2 :: d2 :: rest)) ∧
    (∀ (a b c d v : Nat) (rest : List Nat), v ≤ 13 →
       Metadata.from_bytes (a :: b :: c :: d :: v :: rest) =
         Except.error (MetadataError.CodecError "Decoding is not supported")) := by
  refine ⟨fun a b c d a2 b2 c2 d2 rest => rfl, fun a b c d v rest hv => ?_⟩
  simp [Metadata.from_bytes, decodeRuntimeMetadataBytes, hv]

/-- Witness for the amended C4: a wrong-magic input with deprecated version
byte 5 fails with the generic codec error. -/
theorem from_bytes_ignores_magic_witness :
    Metadata.from_bytes [1, 2, 3, 4, 5] =
      Except.error (MetadataError.CodecError "Decoding is not supported") :=
  from_bytes_ignores_magic.2 1 2 3 4 5 [] (by decide)

/-- C5 counterexample. On a metadata whose registry holds one `u32` type
and nothing else, the variant lookup `get_variant` yields `none` both for
an absent type id (7) and for a resolvable non-variant id (0): it does not
fail with `TypeNotFound` or `ExpectedVariantType`, silently yielding no
result instead. -/
theorem get_variant_silent_none :
    primOnlyMeta.get_variant 7 = none ∧ primOnlyMeta.get_variant 0 = none :=
  ⟨rfl, rfl⟩

/-- C5 as amended. `Metadata::get_variant` returns `none` when the type id
is absent from the registry and when the resolved definition is not a
variant type, and returns the variant list exactly when the definition is a
variant type; the `TypeNotFound` and `ExpectedVariantType` constructors of
`MetadataError` are not produced by this lookup (they belong to the
metadata loader). -/
theorem get_variant_characterization (m : Metadata) (t : Nat) :
    (resolveTy m.types t = none → m.get_variant t = none) ∧
    (∀ pt, resolveTy m.types t = some pt → pt.type_def.isVariant = false →
       m.get_variant t = none) ∧
    (∀ pt vs, resolveTy m.types t = some pt → pt.type_def = TypeDef.variant vs →
       m.get_variant t = some vs) := by
  refine ⟨fun h => ?_, fun pt h hv => ?_, fun pt vs h hd => ?_⟩
  · simp [Metadata.get_variant, h]
  · simp [Metadata.get_variant, h]
    cases hd : pt.type_def <;> simp [hd, TypeDef.isVariant] at hv ⊢
  · simp [Metadata.get_variant, h, hd]

/-- Witness for the amended C5: on the one-type fixture, both failure modes
of the lookup evaluate to `none`. -/
theorem get_variant_characterization_witness :
    primOnlyMeta.get_variant 0 = none ∧ primOnlyMeta.get_variant 9 = none :=
  ⟨(get_variant_characterization primOnlyMeta 0).2.1
     ⟨[], TypeDef.primitive TypeDefPrimitive.u32⟩ rfl rfl,
   (get_variant_characterization primOnlyMeta 9).1 rfl⟩

/-- C6. For every metadata and input: a successful unwrapped-extrinsic
decode leaves the cursor with no remaining data (success with unconsumed
input is impossible), and when the body decode succeeds with bytes left
over, the operation fails with `TrailingBytes` carrying the remaining count
and the offset reached. -/
theorem decode_unwrapped_consumes_input (m : Metadata) (bytes : List Nat) :
    (∀ ext, decodeUnwrappedExtrinsic m bytes = Except.ok ext →
       ∃ c1, decodeUnwrappedInner m (topFuel m bytes) ⟨bytes, 0⟩ = Except.ok (ext, c1) ∧
         c1.data = []) ∧
    (∀ ext c1, decodeUnwrappedInner m (topFuel m bytes) ⟨bytes, 0⟩ = Except.ok (ext, c1) →
       c1.data ≠ [] →
       decodeUnwrappedExtrinsic m bytes =
         Except.error (DecodeError.TrailingBytes c1.data.length c1.offset)) := by
  constructor
  · intro ext hok
    rw [decodeUnwrapped_step] at hok
    cases h : decodeUnwrappedInner m (topFuel m bytes) ⟨bytes, 0⟩ with
    | error e => rw [h] at hok; cases hok
    | ok vc =>
      obtain ⟨e0, c1⟩ := vc
      rw [h] at hok
      dsimp only at hok
      by_cases hemp : c1.data.isEmpty = true
      · rw [if_pos hemp] at hok
        obtain rfl : e0 = ext := by injection hok
        exact ⟨c1, rfl, List.isEmpty_iff.mp hemp⟩
      · rw [if_neg hemp] at hok; cases hok
  · intro ext c1 h hne
    rw [decodeUnwrapped_step, h]
    dsimp only
    rw [if_neg (by simpa [List.isEmpty_iff] using hne)]

/-- Witness for C6: the Auctions fixture extrinsic with one stray trailing
byte fails with `TrailingBytes 1` at offset 8. -/
theorem decode_unwrapped_consumes_input_witness :
    decodeUnwrappedExtrinsic auctionsMeta [4, 72, 1, 4, 8, 12, 16, 20, 99] =
      Except.error (DecodeError.TrailingBytes 1 8) :=
  (decode_unwrapped_consumes_input auctionsMeta [4, 72, 1, 4, 8, 12, 16, 20, 99]).2
    (DecodedExtrinsic.mk "Auctions" "bid" expectedAuctionsArgs none) ⟨[99], 8⟩
    (by rfl) (by simp)

/-- C7. Decoding the unwrapped extrinsic 0x0410010500001cbd...d107 against
the nested-call fixture succeeds, producing the `TechnicalCommittee.execute`
call with exactly two arguments: the `Balances` variant whose unnamed field
holds the `transfer` variant, and the primitive `u32` 500. -/
theorem technical_committee_execute_decode :
    decodeUnwrappedExtrinsic techMeta techBytes =
      Except.ok (DecodedExtrinsic.mk "TechnicalCommittee" "execute" expectedTechArgs none) := rfl

/-- C2. The compact decoder peels chains of single-field unnamed composites
and one-element tuples down to an unsigned integer primitive, decodes that
primitive with the compact codec, and rewraps the result in exactly the
peeled shape (one unnamed-composite layer per wrapper); and concretely the
unwrapped extrinsic 0x04480104080c1014 decodes to `Auctions.bid` with the
arguments `[Unnamed [u32 1], u32 2, u32 3, u32 4, u128 5]`. -/
theorem compact_peel_rewrap_spec :
    (∀ (types : List PortableType) (fuel ty inner n : Nat) (p : TypeDefPrimitive)
       (t : PortableType) (c : Cursor) (v : Value) (c1 : Cursor),
       resolveTy types ty = some t →
       t.type_def = TypeDef.compact inner →
       CompactChain types inner n p →
       n + 2 ≤ fuel →
       decodeCompactPrim p c = Except.ok (v, c1) →
       decodeValue types fuel ty c = Except.ok (rewrap n v, c1)) ∧
    decodeUnwrappedExtrinsic auctionsMeta auctionsBytes =
      Except.ok (DecodedExtrinsic.mk "Auctions" "bid" expectedAuctionsArgs none) := by
  refine ⟨fun types fuel ty inner n p t c v c1 hres hdef hch hfuel hdec => ?_, rfl⟩
  cases fuel with
  | zero => omega
  | succ f =>
    rw [decodeValue_succ]
    simp only [decodeHead, hres, hdef]
    rw [compactPeel_of_chain types inner n p hch f (by omega)]
    simp [bind_ok_ex, hdec]

/-- Witness for C2: decoding `Compact<Id>` (a compact-wrapped one-field
composite) from the single byte 0x04 yields the `u32` 1 rewrapped in one
unnamed composite layer. -/
theorem compact_peel_rewrap_spec_witness :
    decodeValue auctionsTypes 5 2 ⟨[4], 0⟩ =
      Except.ok (Value.Composite (Composite.Unnamed [Value.Primitive (Primitive.U32 1)]),
                 ⟨[], 1⟩) :=
  compact_peel_rewrap_spec.1 auctionsTypes 5 2 1 1 TypeDefPrimitive.u32
    ⟨[], TypeDef.compact 1⟩ ⟨[4], 0⟩ (Value.Primitive (Primitive.U32 1)) ⟨[], 1⟩
    rfl rfl
    (CompactChain.composite 1 0
      ⟨["polkadot_parachain", "primitives", "Id"], TypeDef.composite [⟨none, 0⟩]⟩ 0
      TypeDefPrimitive.u32 rfl rfl
      (CompactChain.prim 0 ⟨[], TypeDef.primitive TypeDefPrimitive.u32⟩
        TypeDefPrimitive.u32 32 rfl rfl rfl))
    (by omega) rfl

/-- C9. Decoding is deterministic: two runs of the decoder on the identical
metadata, type id and bytes produce the identical result (the decoder is a
pure function of its inputs). -/
theorem decode_deterministic (m : Metadata) (fuel ty : Nat) (bytes : List Nat)
    (r1 r2 : Except DecodeError (Value × Cursor))
    (h1 : r1 = decodeValue m.types fuel ty ⟨bytes, 0⟩)
    (h2 : r2 = decodeValue m.types fuel ty ⟨bytes, 0⟩) : r1 = r2 :=
  h1.trans h2.symm

/-- Witness for C9: two decodes of a `u32` from the same four bytes agree. -/
theorem decode_deterministic_witness :
    decodeValue auctionsMeta.types 5 0 ⟨[7, 0, 0, 0], 0⟩ =
      decodeValue auctionsMeta.types 5 0 ⟨[7, 0, 0, 0], 0⟩ :=
  decode_deterministic auctionsMeta 5 0 [7, 0, 0, 0] _ _ rfl rfl

theorem natBitsLsb_length (w : Nat) : ∀ v, (natBitsLsb w v).length = w := by
  induction w with
  | zero => intro v; rfl
  | succ k ih => intro v; simp [natBitsLsb, ih]

theorem readWords_length (bpw : Nat) :
    ∀ (k : Nat) (c : Cursor) (ws : List Nat) (c2 : Cursor),
      readWords bpw k c = Except.ok (ws, c2) → ws.length = k := by
  intro k
  induction k with
  | zero =>
    intro c ws c2 h
    simp [readWords] at h
    obtain ⟨rfl, rfl⟩ := h
    rfl
  | succ j ih =>
    intro c ws c2 h
    rw [readWords] at h
    cases hb : readBytes c bpw with
    | error e => rw [hb] at h; cases h
    | ok bc =>
      obtain ⟨bs, c1⟩ := bc
      rw [hb] at h
      simp only [bind_ok_ex] at h
      cases hw : readWords bpw j c1 with
      | error e => rw [hw] at h; cases h
      | ok wc =>
        obtain ⟨ws1, cx⟩ := wc
        rw [hw] at h
        simp only [bind_ok_ex] at h
        obtain ⟨rfl, rfl⟩ : fromLE bs :: ws1 = ws ∧ cx = c2 := by
          injection h with h2; injection h2 with ha hb2; exact ⟨ha, hb2⟩
        simp [ih c1 ws1 cx hw]

theorem storeWidthOf_pos (types : List PortableType) (store w : Nat)
    (h : storeWidthOf types store = Except.ok w) : 0 < w := by
  unfold storeWidthOf at h
  split at h
  · cases h
  · split at h <;> first
      | (injection h with h2; omega)
      | cases h

theorem bits_flatten_length (w : Nat) (lsb : Bool) (ws : List Nat) :
    ((ws.map (fun v => if lsb then natBitsLsb w v else (natBitsLsb w v).reverse)).flatten).length =
      ws.length * w := by
  induction ws with
  | nil => simp
  | cons a as ih =>
    simp [ih, natBitsLsb_length]
    cases lsb <;> simp [natBitsLsb_length] <;> ring

theorem decodeBitSeq_shape (types : List PortableType) (store order : Nat)
    (c : Cursor) (v : Value) (c1 : Cursor)
    (h : decodeBitSeq types store order c = Except.ok (v, c1)) :
    ∃ (bits : List Bool) (n : Nat) (cn : Cursor),
      v = Value.BitSequence bits ∧ readCompactU32 c = Except.ok (n, cn) ∧
      bits.length = n := by
  unfold decodeBitSeq at h
  cases hw : storeWidthOf types store with
  | error e => rw [hw] at h; cases h
  | ok w =>
    rw [hw] at h
    simp only [bind_ok_ex] at h
    cases ho : bitOrderOf types order with
    | error e => rw [ho] at h; cases h
    | ok lsb =>
      rw [ho] at h
      simp only [bind_ok_ex] at h
      cases hn : readCompactU32 c with
      | error e => rw [hn] at h; cases h
      | ok nc =>
        obtain ⟨n, cn⟩ := nc
        rw [hn] at h
        simp only [bind_ok_ex] at h
        cases hws : readWords (w / 8) ((n + w - 1) / w) cn with
        | error e => rw [hws] at h; cases h
        | ok wc =>
          obtain ⟨ws, c2⟩ := wc
          rw [hws] at h
          simp only [bind_ok_ex] at h
          obtain ⟨hv, hc⟩ : Value.BitSequence
              (((ws.map (fun v => if lsb then natBitsLsb w v
                  else (natBitsLsb w v).reverse)).flatten).take n) = v ∧ c2 = c1 := by
            injection h with h2; injection h2 with ha hb; exact ⟨ha, hb⟩
          refine ⟨_, n, cn, hv.symm, rfl, ?_⟩
          have hwpos : 0 < w := storeWidthOf_pos types store w hw
          have hlen := bits_flatten_length w lsb ws
          have hcount := readWords_length (w / 8) ((n + w - 1) / w) cn ws c2 hws
          rw [List.length_take, hlen, hcount]
          have hdm : (n + w - 1) / w * w + (n + w - 1) % w = n + w - 1 := by
            have hx := Nat.div_add_mod (n + w - 1) w
            rw [Nat.mul_comm] at hx
            exact hx
          have hlt : (n + w - 1) % w < w := Nat.mod_lt _ hwpos
          omega

/-- C8 counterexample. The four-byte compact mode carries only 30 value
bits: the fresh encoding of `2 ^ 30` (which the claim places in the
four-byte range `[2 ^ 14, 2 ^ 32)`) is the five-byte big-integer encoding,
and the largest four-byte encoding (first byte 254, then three 255 bytes)
decodes to `2 ^ 30 - 1`, so no four-byte encoding reaches `2 ^ 30`. -/
theorem compact_four_byte_mode_cap :
    encodeCompact (2 ^ 30) = [3, 0, 0, 0, 64] ∧
    (encodeCompact (2 ^ 30)).length = 5 ∧
    readCompactU32 ⟨[254, 255, 255, 255], 0⟩ = Except.ok (2 ^ 30 - 1, ⟨[], 4⟩) := by
  refine ⟨by decide, by decide, ?_⟩
  norm_num [readCompactU32, readCompact, readByte, bind_ok_ex]

/-- C8 as amended. The compact codec: freshly encoded values in `[0, 63]`,
`[64, 2 ^ 14)` and `[2 ^ 14, 2 ^ 30)` use the one-, two- and four-byte
encodings respectively, while values in `[2 ^ 30, 2 ^ 32)` use the
five-byte big-integer encoding (the four-byte mode holds only 30 value
bits); the decoder accepts all four modes including non-minimal encodings
of small values; and a decoded value above `u32::MAX` fails
`CompactOverflow`. -/
theorem compact_codec_spec :
    (∀ v : Nat, v ≤ 63 →
       encodeCompact v = [4 * v] ∧
       readCompactU32 ⟨encodeCompact v, 0⟩ = Except.ok (v, ⟨[], 1⟩)) ∧
    (∀ v : Nat, 64 ≤ v → v < 2 ^ 14 →
       (encodeCompact v).length = 2 ∧
       readCompactU32 ⟨encodeCompact v, 0⟩ = Except.ok (v, ⟨[], 2⟩)) ∧
    (∀ v : Nat, 2 ^ 14 ≤ v → v < 2 ^ 30 →
       (encodeCompact v).length = 4 ∧
       readCompactU32 ⟨encodeCompact v, 0⟩ = Except.ok (v, ⟨[], 4⟩)) ∧
    (∀ v : Nat, 2 ^ 30 ≤ v → v < 2 ^ 32 →
       (encodeCompact v).length = 5 ∧
       readCompactU32 ⟨encodeCompact v, 0⟩ = Except.ok (v, ⟨[], 5⟩)) ∧
    (∀ v : Nat, v < 2 ^ 14 →
       readCompactU32 ⟨[(4 * v + 1) % 256, (4 * v + 1) / 256], 0⟩ =
         Except.ok (v, ⟨[], 2⟩)) ∧
    (∀ v : Nat, v < 2 ^ 30 →
       readCompactU32 ⟨[(4 * v + 2) % 256, (4 * v + 2) / 256 % 256,
                        (4 * v + 2) / 65536 % 256, (4 * v + 2) / 16777216 % 256], 0⟩ =
         Except.ok (v, ⟨[], 4⟩)) ∧
    (∀ bs : List Nat, 4 ≤ bs.length → bs.length ≤ 67 →
       readCompactU32 ⟨(4 * (bs.length - 4) + 3) :: bs, 0⟩ =
         (if fromLE bs < 2 ^ 32 then Except.ok (fromLE bs, ⟨[], 1 + bs.length⟩)
          else Except.error (DecodeError.CompactOverflow 32 (fromLE bs)))) := by
  refine ⟨fun v hv => ?_, fun v h1 h2 => ?_, fun v h1 h2 => ?_, fun v h1 h2 => ?_,
          fun v h => ?_, fun v h => ?_, fun bs h4 h67 => ?_⟩
  · have he : encodeCompact v = [4 * v] := by
      unfold encodeCompact
      rw [if_pos hv]
    refine ⟨he, ?_⟩
    rw [he, readCompactU32, readCompact_mode0 (4 * v) [] 0 (by omega)]
    simp only [bind_ok_ex]
    rw [show 4 * v / 4 = v by omega]
    rw [if_pos (show v < 2 ^ 32 by omega)]
  · have he : encodeCompact v = [(4 * v + 1) % 256, (4 * v + 1) / 256] := by
      unfold encodeCompact
      rw [if_neg (by omega), if_pos (by omega)]
    refine ⟨by rw [he]; rfl, ?_⟩
    rw [he, readCompactU32,
        readCompact_mode1 ((4 * v + 1) % 256) ((4 * v + 1) / 256) [] 0 (by omega)]
    simp only [bind_ok_ex]
    have hval : ((4 * v + 1) % 256 + 256 * ((4 * v + 1) / 256)) / 4 = v := by omega
    rw [hval]
    simp only [if_pos (show v < 2 ^ 32 by omega)]
  · have he : encodeCompact v =
        [(4 * v + 2) % 256, (4 * v + 2) / 256 % 256,
         (4 * v + 2) / 65536 % 256, (4 * v + 2) / 16777216 % 256] := by
      unfold encodeCompact
      rw [if_neg (by omega), if_neg (by omega), if_pos (by omega)]
    refine ⟨by rw [he]; rfl, ?_⟩
    rw [he, readCompactU32, readCompact_mode2 _ _ _ _ [] 0 (by omega)]
    simp only [bind_ok_ex]
    rw [show ((4 * v + 2) % 256 + 256 * ((4 * v + 2) / 256 % 256) +
          65536 * ((4 * v + 2) / 65536 % 256) +
          16777216 * ((4 * v + 2) / 16777216 % 256)) / 4 = v by omega]
    rw [if_pos (show v < 2 ^ 32 by omega)]
  · have hb4 : byteLen v = 4 := byteLen_eq_four v (by omega) h2
    have he : encodeCompact v = 3 :: toLE 4 v := by
      unfold encodeCompact
      rw [if_neg (by omega), if_neg (by omega), if_neg (by omega), hb4]
      norm_num
    have hlen4 : (toLE 4 v).length = 4 := toLE_length 4 v
    refine ⟨by rw [he]; simp [hlen4], ?_⟩
    rw [he, readCompactU32]
    rw [show (⟨3 :: toLE 4 v, 0⟩ : Cursor) = ⟨3 :: (toLE 4 v ++ []), 0⟩ by simp]
    rw [readCompact_mode3 3 (toLE 4 v) [] 0 (by omega) (by rw [hlen4])]
    simp only [bind_ok_ex]
    rw [fromLE_toLE 4 v (by norm_num at h2 ⊢; omega)]
    rw [if_pos (show v < 2 ^ 32 by omega), hlen4]
  · rw [readCompactU32,
        readCompact_mode1 ((4 * v + 1) % 256) ((4 * v + 1) / 256) [] 0 (by omega)]
    simp only [bind_ok_ex]
    rw [show ((4 * v + 1) % 256 + 256 * ((4 * v + 1) / 256)) / 4 = v by omega]
    rw [if_pos (show v < 2 ^ 32 by omega)]
  · rw [readCompactU32, readCompact_mode2 _ _ _ _ [] 0 (by omega)]
    simp only [bind_ok_ex]
    rw [show ((4 * v + 2) % 256 + 256 * ((4 * v + 2) / 256 % 256) +
          65536 * ((4 * v + 2) / 65536 % 256) +
          16777216 * ((4 * v + 2) / 16777216 % 256)) / 4 = v by omega]
    rw [if_pos (show v < 2 ^ 32 by omega)]
  · rw [readCompactU32]
    rw [show (⟨(4 * (bs.length - 4) + 3) :: bs, 0⟩ : Cursor) =
          ⟨(4 * (bs.length - 4) + 3) :: (bs ++ []), 0⟩ by simp]
    rw [readCompact_mode3 _ bs [] 0 (by omega) (by omega)]
    simp only [bind_ok_ex]

/-- Witness for the amended C8: the fresh two-byte encoding of 300 decodes
back to 300, and a five-byte big-integer encoding of `2 ^ 32` overflows the
32-bit expectation with `CompactOverflow`. -/
theorem compact_codec_spec_witness :
    readCompactU32 ⟨encodeCompact 300, 0⟩ = Except.ok (300, ⟨[], 2⟩) ∧
    readCompactU32 ⟨(4 * 1 + 3) :: [0, 0, 0, 0, 1], 0⟩ =
      Except.error (DecodeError.CompactOverflow 32 4294967296) := by
  constructor
  · exact (compact_codec_spec.2.1 300 (by decide) (by decide)).2
  · have h := compact_codec_spec.2.2.2.2.2.2 [0, 0, 0, 0, 1] (by decide) (by decide)
    norm_num [fromLE] at h
    simpa [fromLE] using h

/-- C10. Whatever storage-word primitive and bit-order flag the two
bit-sequence type ids declare, a decoded bit-sequence value is always
carried by the single fixed representation `Value.BitSequence` (the
`BitVec<Lsb0, u8>` alias of `value.rs` line 163, modelled as its bit list),
and its length is exactly the compact bit count read from the input. -/
theorem bitsequence_fixed_representation (types : List PortableType)
    (fuel ty store order : Nat) (t : PortableType) (c : Cursor) (v : Value) (c1 : Cursor)
    (hres : resolveTy types ty = some t)
    (hdef : t.type_def = TypeDef.bitSequence store order)
    (hdec : decodeValue types fuel ty c = Except.ok (v, c1)) :
    ∃ (bits : List Bool) (n : Nat) (cn : Cursor),
      v = Value.BitSequence bits ∧ readCompactU32 c = Except.ok (n, cn) ∧
      bits.length = n := by
  cases fuel with
  | zero =>
    rw [show decodeValue types 0 ty c = Except.error DecodeError.FuelExhausted from rfl] at hdec
    cases hdec
  | succ f =>
    rw [decodeValue_succ] at hdec
    have hstep : decodeHead types f ty c = decodeBitSeq types store order c := by
      simp only [decodeHead, hres, hdef]
    rw [hstep] at hdec
    exact decodeBitSeq_shape types store order c v c1 hdec

/-- Witness for C10: a three-bit sequence declared with `u16` storage and
`Msb0` order decodes into the fixed `Value.BitSequence` representation with
exactly three bits. -/
theorem bitsequence_fixed_representation_witness :
    ∃ (bits : List Bool) (n : Nat) (cn : Cursor),
      (Value.BitSequence [false, false, false] : Value) = Value.BitSequence bits ∧
      readCompactU32 ⟨[12, 255, 0], 0⟩ = Except.ok (n, cn) ∧ bits.length = n :=
  bitsequence_fixed_representation bitsTypes 3 2 0 1 ⟨[], TypeDef.bitSequence 0 1⟩
    ⟨[12, 255, 0], 0⟩ (Value.BitSequence [false, false, false]) ⟨[], 3⟩ rfl rfl rfl

end MetaDecode
